import Mathlib

/-!
Verification of the central-body surface engine (CentralBodySurface.js).

Shallow embedding of the data model and per-frame operations:
imagery/terrain state machines, the load pump, the LOD selector step,
screen-space error, the command assembler, layer-change handlers and
destroy.  Machine state that the source keeps on mutable JS objects is
passed explicitly; fallible steps (property access on undefined) return
Except.
-/

namespace CentralBody

/-- Imagery states, from ImageryState.js as used by CentralBodySurface.js. -/
inductive ImageryState where
  | PLACEHOLDER
  | UNLOADED
  | TRANSITIONING
  | RECEIVED
  | TEXTURE_LOADED
  | READY
  | FAILED
  | INVALID
deriving DecidableEq, Repr

/-- Terrain tile states, from TileState.js as used by CentralBodySurface.js. -/
inductive TileState where
  | UNLOADED
  | TRANSITIONING
  | RECEIVED
  | TRANSFORMED
  | READY
deriving DecidableEq, Repr

/-- An Imagery object: its load state, its reference count, and its parent in
the layer pyramid (`undefined` for a root imagery tile, so a root carries no
parent and a child carries one). -/
inductive Imagery where
  | root (state : ImageryState) (referenceCount : Nat)
  | child (state : ImageryState) (referenceCount : Nat) (parent : Imagery)
deriving DecidableEq, Repr

def Imagery.state : Imagery → ImageryState
  | .root s _ => s
  | .child s _ _ => s

def Imagery.referenceCount : Imagery → Nat
  | .root _ n => n
  | .child _ n _ => n

def Imagery.parent : Imagery → Option Imagery
  | .root _ _ => none
  | .child _ _ p => some p

/-- Imagery.prototype.addReference: increments the reference count. -/
def Imagery.addReference : Imagery → Imagery
  | .root s n => .root s (n + 1)
  | .child s n p => .child s (n + 1) p

/-- A TileImagery: the binding of a tile to one imagery tile, with the
fallback slot `originalImagery` (fields used by the failed/invalid fallback
in processTileLoadQueue). -/
structure TileImagery where
  imagery : Imagery
  originalImagery : Option Imagery
deriving DecidableEq, Repr

/-- The parent-chain walk of processTileLoadQueue (CentralBodySurface.js
lines 643-646): `var parent = imagery.parent; while (typeof parent !==
undefined && (parent.state === FAILED || parent.state === INVALID)) parent =
parent.parent;` — returns the first ancestor that is neither FAILED nor
INVALID, or none when the chain is exhausted. -/
def Imagery.walkNonFailed (p : Imagery) : Option Imagery :=
  if p.state = ImageryState.FAILED ∨ p.state = ImageryState.INVALID then
    match p with
    | .root _ _ => none
    | .child _ _ q => q.walkNonFailed
  else
    some p

/-- The loop entry: the walk starts from `imagery.parent`; an undefined
parent yields an undefined result. -/
def walkToNonFailedAncestor : Option Imagery → Option Imagery
  | none => none
  | some p => p.walkNonFailed

/-- The FAILED/INVALID fallback block of processTileLoadQueue
(CentralBodySurface.js lines 641-655).  When the imagery is FAILED or
INVALID the code walks the parent chain, stores the failed imagery in
`originalImagery`, and then unconditionally evaluates `parent.addReference()`
and `tileImagery.imagery = parent`.  When the walk ends with `parent`
undefined, `parent.addReference()` is a TypeError, embedded as an error. -/
def handleFailedOrInvalidImagery (tileImagery : TileImagery) :
    Except String TileImagery :=
  if tileImagery.imagery.state = ImageryState.FAILED ∨
      tileImagery.imagery.state = ImageryState.INVALID then
    match walkToNonFailedAncestor tileImagery.imagery.parent with
    | none => Except.error "TypeError: parent is undefined"
    | some parent =>
        Except.ok { imagery := parent.addReference,
                    originalImagery := some tileImagery.imagery }
  else
    Except.ok tileImagery

lemma walkNonFailed_not_failed (p : Imagery) (a : Imagery)
    (h : p.walkNonFailed = some a) :
    ¬(a.state = ImageryState.FAILED ∨ a.state = ImageryState.INVALID) := by
  induction p with
  | root s n =>
      rw [Imagery.walkNonFailed] at h
      by_cases hs : s = ImageryState.FAILED ∨ s = ImageryState.INVALID
      · simp [Imagery.state, hs] at h
      · simp [Imagery.state, hs] at h ⊢
        subst h
        simpa [Imagery.state] using hs
  | child s n q ih =>
      rw [Imagery.walkNonFailed] at h
      by_cases hs : s = ImageryState.FAILED ∨ s = ImageryState.INVALID
      · simp [Imagery.state, hs] at h
        exact ih h
      · simp [Imagery.state, hs] at h ⊢
        subst h
        simpa [Imagery.state] using hs

lemma addReference_referenceCount (a : Imagery) :
    a.addReference.referenceCount = a.referenceCount + 1 := by
  cases a <;> rfl

/-- Claim C1 (amended): for a TileImagery whose imagery is FAILED or
INVALID, when the walk up `imagery.parent` finds a non-failed ancestor `a`,
the load pump stores the failed imagery in `originalImagery`, adds a
reference to `a` and substitutes it as the TileImagery's imagery; the found
ancestor is indeed neither FAILED nor INVALID.  (When every ancestor fails
the code instead dereferences an undefined parent and raises a TypeError;
see the counterexample.) -/
theorem C1_failed_imagery_fallback (ti : TileImagery) (a : Imagery)
    (hstate : ti.imagery.state = ImageryState.FAILED ∨
      ti.imagery.state = ImageryState.INVALID)
    (hanc : walkToNonFailedAncestor ti.imagery.parent = some a) :
    handleFailedOrInvalidImagery ti =
      Except.ok { imagery := a.addReference, originalImagery := some ti.imagery } ∧
    a.addReference.referenceCount = a.referenceCount + 1 ∧
    ¬(a.state = ImageryState.FAILED ∨ a.state = ImageryState.INVALID) := by
  refine ⟨?_, addReference_referenceCount a, ?_⟩
  · rw [handleFailedOrInvalidImagery, if_pos hstate, hanc]
  · cases hp : ti.imagery.parent with
    | none => rw [hp] at hanc; exact absurd hanc (by simp [walkToNonFailedAncestor])
    | some p =>
        rw [hp] at hanc
        exact walkNonFailed_not_failed p a hanc

/-- Claim C1 witness: a FAILED imagery whose parent is READY with reference
count 1 is substituted by that parent with reference count 2. -/
theorem C1_failed_imagery_fallback_witness :
    handleFailedOrInvalidImagery
        { imagery := Imagery.child ImageryState.FAILED 1
            (Imagery.root ImageryState.READY 1),
          originalImagery := none } =
      Except.ok { imagery := (Imagery.root ImageryState.READY 1).addReference,
                  originalImagery := some (Imagery.child ImageryState.FAILED 1
                    (Imagery.root ImageryState.READY 1)) } ∧
    (Imagery.root ImageryState.READY 1).addReference.referenceCount =
      (Imagery.root ImageryState.READY 1).referenceCount + 1 ∧
    ¬((Imagery.root ImageryState.READY 1).state = ImageryState.FAILED ∨
      (Imagery.root ImageryState.READY 1).state = ImageryState.INVALID) :=
  C1_failed_imagery_fallback
    { imagery := Imagery.child ImageryState.FAILED 1
        (Imagery.root ImageryState.READY 1),
      originalImagery := none }
    (Imagery.root ImageryState.READY 1) (by decide) (by decide)

/-- Claim C1 counterexample: when every ancestor of a FAILED imagery is
itself FAILED (here a FAILED imagery whose only ancestor is FAILED), the
fallback does not merely contribute no texture and continue: the code
evaluates `parent.addReference()` with `parent` undefined and raises a
TypeError, refuting the claim that processing continues without raising an
error. -/
theorem C1_all_ancestors_failed_raises :
    handleFailedOrInvalidImagery
        { imagery := Imagery.child ImageryState.FAILED 1
            (Imagery.root ImageryState.FAILED 1),
          originalImagery := none } =
      Except.error "TypeError: parent is undefined" := by
  rfl

/-! ### C2: the per-tile step of selectTilesForRendering -/

/-- A child tile as seen by the selection traversal: its `renderable` and
`doneLoading` flags and the outcome of `isTileVisible` on it (visibility is
computed by frustum/occluder culling, external to the branching verified
here, so it is carried as a per-child field). -/
structure ChildTile where
  renderable : Bool
  doneLoading : Bool
  visible : Bool
deriving DecidableEq, Repr

/-- A tile as seen by the selection step: its level and its (four, lazily
created) children. -/
structure SelTile where
  level : Nat
  children : List ChildTile
deriving DecidableEq, Repr

/-- The child loop of queueChildrenLoadAndDetermineIfChildrenAreAllRenderable
(CentralBodySurface.js lines 541-550): each child is load-queued when not
`doneLoading`, and `allRenderable` is cleared when a child is not
`renderable`.  The accumulator is (allRenderable, load-queue additions). -/
def childScan : List ChildTile → Bool × List ChildTile → Bool × List ChildTile
  | [], acc => acc
  | c :: rest, acc =>
      childScan rest
        (acc.1 && c.renderable, if c.doneLoading then acc.2 else acc.2 ++ [c])

/-- queueChildrenLoadAndDetermineIfChildrenAreAllRenderable
(CentralBodySurface.js lines 533-553): returns false immediately at
`maxLevel`; otherwise scans the children, queueing loads, and reports
whether all children are renderable. -/
def queueChildrenLoadAndDetermineIfChildrenAreAllRenderable
    (maxLevel : Nat) (tile : SelTile) : Bool × List ChildTile :=
  if tile.level = maxLevel then (false, [])
  else childScan tile.children (true, [])

/-- What the BFS loop body does with a dequeued tile: add it to the render
list, or refine into it (enqueuing `toTraverse` into the traversal queue). -/
inductive SelectAction where
  | render
  | refine (toTraverse : List ChildTile)
deriving DecidableEq, Repr

/-- The per-tile branching of the BFS loop in selectTilesForRendering
(CentralBodySurface.js lines 321-338), given the already-computed
screen-space error of the tile.  Returns the action and the children queued
for loading. -/
def selectStep (maxScreenSpaceError sse : ℚ) (maxLevel : Nat)
    (tile : SelTile) : SelectAction × List ChildTile :=
  if sse < maxScreenSpaceError then (SelectAction.render, [])
  else
    let qc := queueChildrenLoadAndDetermineIfChildrenAreAllRenderable
      maxLevel tile
    if qc.1 then
      (SelectAction.refine (tile.children.filter (·.visible)), qc.2)
    else
      (SelectAction.render, qc.2)

lemma childScan_spec (l : List ChildTile) (b : Bool) (s : List ChildTile) :
    childScan l (b, s) =
      (b && l.all (·.renderable), s ++ l.filter (fun c => !c.doneLoading)) := by
  induction l generalizing b s with
  | nil => simp [childScan]
  | cons c rest ih =>
      by_cases hd : c.doneLoading <;>
        simp [childScan, ih, hd, Bool.and_assoc, List.filter_cons]

/-- Claim C2: for a dequeued tile (whose level never exceeds `maxLevel`,
since refinement stops there): SSE below the threshold renders the tile;
otherwise the tile is refined if and only if its level is strictly below
`maxLevel` and all children are renderable; on refinement exactly the
visible children are enqueued and the not-done children were load-queued;
in every other case the tile is rendered — a tile at `maxLevel` is never
refined, and rendering and refining are mutually exclusive. -/
theorem C2_select_step_refinement (maxScreenSpaceError sse : ℚ)
    (maxLevel : Nat) (tile : SelTile)
    (hfour : tile.children.length = 4) (hlev : tile.level ≤ maxLevel) :
    (sse < maxScreenSpaceError →
      selectStep maxScreenSpaceError sse maxLevel tile =
        (SelectAction.render, [])) ∧
    ((∃ l, (selectStep maxScreenSpaceError sse maxLevel tile).1 =
        SelectAction.refine l) ↔
      (¬sse < maxScreenSpaceError ∧ tile.level < maxLevel ∧
        ∀ c ∈ tile.children, c.renderable = true)) ∧
    (∀ l, (selectStep maxScreenSpaceError sse maxLevel tile).1 =
        SelectAction.refine l →
      l = tile.children.filter (·.visible) ∧
      (selectStep maxScreenSpaceError sse maxLevel tile).2 =
        tile.children.filter (fun c => !c.doneLoading)) ∧
    ((selectStep maxScreenSpaceError sse maxLevel tile).1 =
        SelectAction.render ↔
      ¬∃ l, (selectStep maxScreenSpaceError sse maxLevel tile).1 =
        SelectAction.refine l) ∧
    (tile.level = maxLevel →
      (selectStep maxScreenSpaceError sse maxLevel tile).1 =
        SelectAction.render) := by
  by_cases hsse : sse < maxScreenSpaceError
  · simp [selectStep, hsse]
  · by_cases hml : tile.level = maxLevel
    · simp [selectStep, hsse,
        queueChildrenLoadAndDetermineIfChildrenAreAllRenderable, hml,
        lt_irrefl]
    · have hlt : tile.level < maxLevel := lt_of_le_of_ne hlev hml
      by_cases hall : tile.children.all (·.renderable)
      · simp [selectStep, hsse,
          queueChildrenLoadAndDetermineIfChildrenAreAllRenderable, hml,
          childScan_spec, hall, hlt]
        exact fun c hc => List.all_eq_true.mp hall c hc
      · have : ¬∀ c ∈ tile.children, c.renderable = true := by
          simpa [List.all_eq_true] using hall
        simp [selectStep, hsse,
          queueChildrenLoadAndDetermineIfChildrenAreAllRenderable, hml,
          childScan_spec, hall, this]

/-- Claim C2 witness: a level-1 tile under maxLevel 5 with SSE 3 above the
threshold 2 and four renderable children (one invisible, one not done
loading) is refined, not rendered. -/
theorem C2_select_step_refinement_witness :
    ((3 : ℚ) < 2 →
      selectStep 2 3 5
          { level := 1,
            children := [⟨true, true, true⟩, ⟨true, false, true⟩,
              ⟨true, true, false⟩, ⟨true, true, true⟩] } =
        (SelectAction.render, [])) ∧
    ((∃ l, (selectStep 2 3 5
        { level := 1,
          children := [⟨true, true, true⟩, ⟨true, false, true⟩,
            ⟨true, true, false⟩, ⟨true, true, true⟩] }).1 =
        SelectAction.refine l) ↔
      (¬(3 : ℚ) < 2 ∧ 1 < 5 ∧
        ∀ c ∈ [(⟨true, true, true⟩ : ChildTile), ⟨true, false, true⟩,
          ⟨true, true, false⟩, ⟨true, true, true⟩], c.renderable = true)) ∧
    (∀ l, (selectStep 2 3 5
        { level := 1,
          children := [⟨true, true, true⟩, ⟨true, false, true⟩,
            ⟨true, true, false⟩, ⟨true, true, true⟩] }).1 =
        SelectAction.refine l →
      l = [(⟨true, true, true⟩ : ChildTile), ⟨true, false, true⟩,
          ⟨true, true, false⟩, ⟨true, true, true⟩].filter (·.visible) ∧
      (selectStep 2 3 5
        { level := 1,
          children := [⟨true, true, true⟩, ⟨true, false, true⟩,
            ⟨true, true, false⟩, ⟨true, true, true⟩] }).2 =
        [(⟨true, true, true⟩ : ChildTile), ⟨true, false, true⟩,
          ⟨true, true, false⟩, ⟨true, true, true⟩].filter
            (fun c => !c.doneLoading)) ∧
    ((selectStep 2 3 5
        { level := 1,
          children := [⟨true, true, true⟩, ⟨true, false, true⟩,
            ⟨true, true, false⟩, ⟨true, true, true⟩] }).1 =
        SelectAction.render ↔
      ¬∃ l, (selectStep 2 3 5
        { level := 1,
          children := [⟨true, true, true⟩, ⟨true, false, true⟩,
            ⟨true, true, false⟩, ⟨true, true, true⟩] }).1 =
        SelectAction.refine l) ∧
    ((1 : Nat) = 5 →
      (selectStep 2 3 5
        { level := 1,
          children := [⟨true, true, true⟩, ⟨true, false, true⟩,
            ⟨true, true, false⟩, ⟨true, true, true⟩] }).1 =
        SelectAction.render) :=
  C2_select_step_refinement 2 3 5
    { level := 1,
      children := [⟨true, true, true⟩, ⟨true, false, true⟩,
        ⟨true, true, false⟩, ⟨true, true, true⟩] }
    (by decide) (by decide)

/-! ### C3: the per-tile completion step of processTileLoadQueue -/

/-- The inner imagery loop of processTileLoadQueue (CentralBodySurface.js
lines 609-664): `for (i = 0, len = ...; Date.now() < endTime && i < len;
++i)`.  The wall clock is monotone, so the sequence of `Date.now() <
endTime` checks is a run of successes followed by failures; `budget` is the
number of iterations the deadline allows.  Each iteration advances one
TileImagery through its transitions (request/createTexture/reproject/
fallback), embedded as the oracle `step` since the resulting state also
depends on the external providers; `stateOf` reads the (possibly
substituted) imagery state afterwards.  Returns (loop ended with i = len,
conjunction of `imagery.state === READY` over the processed entries,
post-loop entries). -/
def imageryLoop {ε : Type} (step : ε → ε) (stateOf : ε → ImageryState) :
    Nat → List ε → Bool × Bool × List ε
  | _, [] => (true, true, [])
  | 0, e :: rest => (false, true, e :: rest)
  | budget + 1, e :: rest =>
      let e2 := step e
      let r := imageryLoop step stateOf budget rest
      (r.1, decide (stateOf e2 = ImageryState.READY) && r.2.1, e2 :: r.2.2)

/-- The two flags the completion step sets. -/
structure TileFlags where
  renderable : Bool
  doneLoading : Bool
deriving DecidableEq, Repr

/-- The completion step of processTileLoadQueue (CentralBodySurface.js lines
605-671): `doneLoading` starts as `tile.state === TileState.READY` (after
this frame's terrain transitions, passed as `terrainState`), is conjoined
with each processed imagery's readiness, and `if (i === len && doneLoading)`
the tile becomes renderable and done and is removed from the load queue.
Returns (tile flags, removed from load queue, post imagery entries). -/
def processTileCompletion {ε : Type} (step : ε → ε)
    (stateOf : ε → ImageryState) (budget : Nat) (terrainState : TileState)
    (entries : List ε) (flags : TileFlags) :
    TileFlags × Bool × List ε :=
  let r := imageryLoop step stateOf budget entries
  let doneLoading := decide (terrainState = TileState.READY) && r.2.1
  if r.1 && doneLoading then
    ({ renderable := true, doneLoading := true }, true, r.2.2)
  else
    (flags, false, r.2.2)

lemma imageryLoop_spec {ε : Type} (step : ε → ε)
    (stateOf : ε → ImageryState) :
    ∀ (budget : Nat) (entries : List ε),
      (imageryLoop step stateOf budget entries).1 =
        decide (entries.length ≤ budget) ∧
      (entries.length ≤ budget →
        (imageryLoop step stateOf budget entries).2.2 = entries.map step ∧
        (imageryLoop step stateOf budget entries).2.1 =
          entries.all fun e =>
            decide (stateOf (step e) = ImageryState.READY)) := by
  intro budget entries
  induction entries generalizing budget with
  | nil => simp [imageryLoop]
  | cons e rest ih =>
      cases budget with
      | zero => simp [imageryLoop]
      | succ b =>
          have h := ih b
          simp only [imageryLoop, List.length_cons, Nat.succ_le_succ_iff,
            List.map_cons, List.all_cons]
          refine ⟨h.1, fun hle => ?_⟩
          have h2 := h.2 hle
          simp [h2.1, h2.2]

/-- Claim C3: in a processTileLoadQueue step for one tile, the tile gets
`renderable := true`, `doneLoading := true` and is removed from the load
queue exactly when the imagery loop runs to completion within the deadline
budget, every processed imagery entry ends in state READY, and the terrain
state is READY; otherwise all three effects are withheld (the flags are left
as they were and the tile stays queued). -/
theorem C3_load_pump_completion {ε : Type} (step : ε → ε)
    (stateOf : ε → ImageryState) (budget : Nat) (terrainState : TileState)
    (entries : List ε) (flags : TileFlags) :
    ((processTileCompletion step stateOf budget terrainState entries
        flags).2.1 = true ∧
      (processTileCompletion step stateOf budget terrainState entries
        flags).1 = { renderable := true, doneLoading := true } ↔
      entries.length ≤ budget ∧
        (∀ e ∈ entries, stateOf (step e) = ImageryState.READY) ∧
        terrainState = TileState.READY) ∧
    (¬(entries.length ≤ budget ∧
        (∀ e ∈ entries, stateOf (step e) = ImageryState.READY) ∧
        terrainState = TileState.READY) →
      (processTileCompletion step stateOf budget terrainState entries
        flags).1 = flags ∧
      (processTileCompletion step stateOf budget terrainState entries
        flags).2.1 = false) := by
  have h := imageryLoop_spec step stateOf budget entries
  have key : ((imageryLoop step stateOf budget entries).1 &&
      (decide (terrainState = TileState.READY) &&
        (imageryLoop step stateOf budget entries).2.1)) = true ↔
      (entries.length ≤ budget ∧
        (∀ e ∈ entries, stateOf (step e) = ImageryState.READY) ∧
        terrainState = TileState.READY) := by
    constructor
    · intro hc
      rw [Bool.and_eq_true, Bool.and_eq_true] at hc
      obtain ⟨h1, h2, h3⟩ := hc
      have hle : entries.length ≤ budget := by
        rw [h.1] at h1; exact of_decide_eq_true h1
      refine ⟨hle, ?_, of_decide_eq_true h2⟩
      rw [(h.2 hle).2] at h3
      intro e he
      exact of_decide_eq_true (List.all_eq_true.mp h3 e he)
    · rintro ⟨hle, hready, hterr⟩
      have h1 : (imageryLoop step stateOf budget entries).1 = true := by
        rw [h.1]; exact decide_eq_true hle
      have h3 : (imageryLoop step stateOf budget entries).2.1 = true := by
        rw [(h.2 hle).2, List.all_eq_true]
        exact fun e he => decide_eq_true (hready e he)
      rw [h1, h3, decide_eq_true hterr]
      rfl
  by_cases hc : ((imageryLoop step stateOf budget entries).1 &&
      (decide (terrainState = TileState.READY) &&
        (imageryLoop step stateOf budget entries).2.1)) = true
  · have hp := key.mp hc
    rw [Bool.and_eq_true, Bool.and_eq_true] at hc
    obtain ⟨h1, h2, h3⟩ := hc
    simp only [processTileCompletion]
    simp [h1, h3, hp.1, hp.2.1, hp.2.2]
    exact hp.2.1
  · have hb : ((imageryLoop step stateOf budget entries).1 &&
        (decide (terrainState = TileState.READY) &&
          (imageryLoop step stateOf budget entries).2.1)) = false := by
      cases hE : ((imageryLoop step stateOf budget entries).1 &&
          (decide (terrainState = TileState.READY) &&
            (imageryLoop step stateOf budget entries).2.1))
      · rfl
      · exact absurd hE hc
    have hR : ¬(entries.length ≤ budget ∧
        (∀ e ∈ entries, stateOf (step e) = ImageryState.READY) ∧
        terrainState = TileState.READY) := fun hr => hc (key.mpr hr)
    simp only [processTileCompletion]
    simp [hb, hR]

/-! ### C4: screenSpaceError and distanceSquaredToTile -/

/-- Scene modes, from SceneMode.js as used by CentralBodySurface.js. -/
inductive SceneMode where
  | SCENE2D
  | COLUMBUS_VIEW
  | SCENE3D
  | MORPHING
deriving DecidableEq, Repr

/-- Cartesian3, idealizing JS doubles as reals. -/
structure Cartesian3 where
  x : ℝ
  y : ℝ
  z : ℝ

def Cartesian3.subtract (a b : Cartesian3) : Cartesian3 :=
  ⟨a.x - b.x, a.y - b.y, a.z - b.z⟩

def Cartesian3.dot (a b : Cartesian3) : ℝ :=
  a.x * b.x + a.y * b.y + a.z * b.z

structure Cartographic where
  longitude : ℝ
  latitude : ℝ
  height : ℝ

structure Extent where
  west : ℝ
  south : ℝ
  east : ℝ
  north : ℝ

def Extent.getSouthwest (e : Extent) : Cartographic := ⟨e.west, e.south, 0⟩

def Extent.getNortheast (e : Extent) : Cartographic := ⟨e.east, e.north, 0⟩

def negativeUnitY : Cartesian3 := ⟨0, -1, 0⟩

def negativeUnitZ : Cartesian3 := ⟨0, 0, -1⟩

def unitY : Cartesian3 := ⟨0, 1, 0⟩

def unitZ : Cartesian3 := ⟨0, 0, 1⟩

/-- The tile fields read by screenSpaceError and distanceSquaredToTile, and
the `distance` scratch written back onto the tile. -/
structure Tile where
  extent : Extent
  level : Nat
  southwestCornerCartesian : Cartesian3
  northeastCornerCartesian : Cartesian3
  westNormal : Cartesian3
  southNormal : Cartesian3
  eastNormal : Cartesian3
  northNormal : Cartesian3
  maxHeight : ℝ
  distance : ℝ

/-- distanceSquaredToTile (CentralBodySurface.js lines 471-531).  In
non-3D modes the corners are replaced by the projected extent corners with
coordinates permuted (z := y, y := x, x := 0), the normals by the fixed
axis normals, and maxHeight by 0; the camera height is the cartographic
height in 3D and the camera x otherwise.  Positive plane distances for
west-or-east, south-or-north and top accumulate as squares. -/
noncomputable def distanceSquaredToTile (mode : SceneMode)
    (projection : Cartographic → Cartesian3)
    (cameraCartesianPosition : Cartesian3)
    (cameraCartographicPosition : Cartographic) (tile : Tile) : ℝ :=
  let southwestCornerCartesian :=
    if mode ≠ SceneMode.SCENE3D then
      let p := projection tile.extent.getSouthwest
      (⟨0, p.x, p.y⟩ : Cartesian3)
    else tile.southwestCornerCartesian
  let northeastCornerCartesian :=
    if mode ≠ SceneMode.SCENE3D then
      let p := projection tile.extent.getNortheast
      (⟨0, p.x, p.y⟩ : Cartesian3)
    else tile.northeastCornerCartesian
  let westNormal :=
    if mode ≠ SceneMode.SCENE3D then negativeUnitY else tile.westNormal
  let southNormal :=
    if mode ≠ SceneMode.SCENE3D then negativeUnitZ else tile.southNormal
  let eastNormal :=
    if mode ≠ SceneMode.SCENE3D then unitY else tile.eastNormal
  let northNormal :=
    if mode ≠ SceneMode.SCENE3D then unitZ else tile.northNormal
  let maxHeight := if mode ≠ SceneMode.SCENE3D then 0 else tile.maxHeight
  let vectorFromSouthwestCorner :=
    cameraCartesianPosition.subtract southwestCornerCartesian
  let distanceToWestPlane := vectorFromSouthwestCorner.dot westNormal
  let distanceToSouthPlane := vectorFromSouthwestCorner.dot southNormal
  let vectorFromNortheastCorner :=
    cameraCartesianPosition.subtract northeastCornerCartesian
  let distanceToEastPlane := vectorFromNortheastCorner.dot eastNormal
  let distanceToNorthPlane := vectorFromNortheastCorner.dot northNormal
  let cameraHeight :=
    if mode = SceneMode.SCENE3D then cameraCartographicPosition.height
    else cameraCartesianPosition.x
  let distanceFromTop := cameraHeight - maxHeight
  let result0 : ℝ := 0
  let result1 :=
    if distanceToWestPlane > 0 then
      result0 + distanceToWestPlane * distanceToWestPlane
    else if distanceToEastPlane > 0 then
      result0 + distanceToEastPlane * distanceToEastPlane
    else result0
  let result2 :=
    if distanceToSouthPlane > 0 then
      result1 + distanceToSouthPlane * distanceToSouthPlane
    else if distanceToNorthPlane > 0 then
      result1 + distanceToNorthPlane * distanceToNorthPlane
    else result1
  if distanceFromTop > 0 then
    result2 + distanceFromTop * distanceFromTop
  else result2

/-- screenSpaceError2D (CentralBodySurface.js lines 398-408). -/
noncomputable def screenSpaceError2D
    (getLevelMaximumGeometricError : Nat → ℝ)
    (frustumTop frustumBottom frustumRight frustumLeft : ℝ)
    (clientWidth clientHeight : ℝ) (tile : Tile) : ℝ :=
  let maxGeometricError := getLevelMaximumGeometricError tile.level
  let pixelSize :=
    max (frustumTop - frustumBottom) (frustumRight - frustumLeft) /
      max clientWidth clientHeight
  maxGeometricError / pixelSize

/-- screenSpaceError (CentralBodySurface.js lines 360-396): dispatches to
the 2D variant in SCENE2D; otherwise the latitude factor is
cos(latitudeClosestToEquator) in SCENE3D only (the source comment reads
"Adjust by latitude in 3D only."), the distance is the square root of
distanceSquaredToTile and is stored on the tile, and the result is
maxGeometricError * height / (2 * distance * tan(0.5 * fovy)).  Returns the
error together with the updated tile. -/
noncomputable def screenSpaceError (mode : SceneMode)
    (projection : Cartographic → Cartesian3)
    (getLevelMaximumGeometricError : Nat → ℝ)
    (cameraCartesianPosition : Cartesian3)
    (cameraCartographicPosition : Cartographic)
    (clientWidth clientHeight : ℝ) (fovy : ℝ)
    (frustumTop frustumBottom frustumRight frustumLeft : ℝ)
    (tile : Tile) : ℝ × Tile :=
  if mode = SceneMode.SCENE2D then
    (screenSpaceError2D getLevelMaximumGeometricError frustumTop
      frustumBottom frustumRight frustumLeft clientWidth clientHeight tile,
     tile)
  else
    let latitudeClosestToEquator :=
      if mode = SceneMode.SCENE3D then
        if tile.extent.south > 0 then tile.extent.south
        else if tile.extent.north < 0 then tile.extent.north
        else 0
      else 0
    let latitudeFactor :=
      if mode = SceneMode.SCENE3D then Real.cos latitudeClosestToEquator
      else 1
    let maxGeometricError :=
      latitudeFactor * getLevelMaximumGeometricError tile.level
    let distance := Real.sqrt (distanceSquaredToTile mode projection
      cameraCartesianPosition cameraCartographicPosition tile)
    let tile2 := { tile with distance := distance }
    ((maxGeometricError * clientHeight) /
      (2 * distance * Real.tan (0.5 * fovy)), tile2)

/-- Claim C4 (amended): outside SCENE2D (i.e. in 3D, Columbus View and
morphing), the screen-space error equals
latitudeFactor * levelMaximumGeometricError(level) * viewportHeight /
(2 * distance * tan(fovy / 2)) with distance = sqrt(distanceSquaredToTile),
where the latitude factor is cos(latitudeClosestToEquator) in SCENE3D but 1
otherwise (the code adjusts by latitude in 3D only), and the computed
distance is stored on the tile for later command sorting. -/
theorem C4_screen_space_error_formula (mode : SceneMode)
    (projection : Cartographic → Cartesian3)
    (getLevelMaximumGeometricError : Nat → ℝ)
    (cameraCartesianPosition : Cartesian3)
    (cameraCartographicPosition : Cartographic)
    (clientWidth clientHeight fovy : ℝ)
    (frustumTop frustumBottom frustumRight frustumLeft : ℝ) (tile : Tile)
    (h2d : mode ≠ SceneMode.SCENE2D) :
    screenSpaceError mode projection getLevelMaximumGeometricError
        cameraCartesianPosition cameraCartographicPosition clientWidth
        clientHeight fovy frustumTop frustumBottom frustumRight
        frustumLeft tile =
      (((if mode = SceneMode.SCENE3D then
            Real.cos (if tile.extent.south > 0 then tile.extent.south
              else if tile.extent.north < 0 then tile.extent.north else 0)
          else 1) * getLevelMaximumGeometricError tile.level *
          clientHeight) /
        (2 * Real.sqrt (distanceSquaredToTile mode projection
            cameraCartesianPosition cameraCartographicPosition tile) *
          Real.tan (fovy / 2)),
       { tile with
          distance := Real.sqrt (distanceSquaredToTile mode projection
            cameraCartesianPosition cameraCartographicPosition tile) }) := by
  have htan : (0.5 : ℝ) * fovy = fovy / 2 := by ring
  by_cases h3 : mode = SceneMode.SCENE3D <;>
    simp [screenSpaceError, h2d, h3, htan]

/-- The concrete tile of the C4 witness and counterexample: extent from
longitude 0..1, latitude pi/3..pi/2 (north of the equator). -/
noncomputable def sampleTile : Tile :=
  { extent := ⟨0, Real.pi / 3, 1, Real.pi / 2⟩,
    level := 0,
    southwestCornerCartesian := ⟨0, 0, 0⟩,
    northeastCornerCartesian := ⟨0, 0, 0⟩,
    westNormal := ⟨0, 0, 0⟩,
    southNormal := ⟨0, 0, 0⟩,
    eastNormal := ⟨0, 0, 0⟩,
    northNormal := ⟨0, 0, 0⟩,
    maxHeight := 0,
    distance := 0 }

lemma distanceSquared_sample :
    distanceSquaredToTile SceneMode.COLUMBUS_VIEW (fun _ => ⟨0, 0, 0⟩)
      ⟨1, 0, 0⟩ ⟨0, 0, 0⟩ sampleTile = 1 := by
  simp [distanceSquaredToTile, sampleTile, Cartesian3.subtract,
    Cartesian3.dot, negativeUnitY, negativeUnitZ, unitY, unitZ]

/-- Claim C4 witness: the amended formula instantiated in Columbus View at
the sample tile and camera. -/
theorem C4_screen_space_error_formula_witness :
    screenSpaceError SceneMode.COLUMBUS_VIEW (fun _ => ⟨0, 0, 0⟩)
        (fun _ => 2) ⟨1, 0, 0⟩ ⟨0, 0, 0⟩ 1 1 (Real.pi / 2) 0 0 0 0
        sampleTile =
      (((if SceneMode.COLUMBUS_VIEW = SceneMode.SCENE3D then
            Real.cos (if sampleTile.extent.south > 0 then
                sampleTile.extent.south
              else if sampleTile.extent.north < 0 then
                sampleTile.extent.north
              else 0)
          else 1) * (fun _ : Nat => (2 : ℝ)) sampleTile.level * 1) /
        (2 * Real.sqrt (distanceSquaredToTile SceneMode.COLUMBUS_VIEW
            (fun _ => ⟨0, 0, 0⟩) ⟨1, 0, 0⟩ ⟨0, 0, 0⟩ sampleTile) *
          Real.tan (Real.pi / 2 / 2)),
       { sampleTile with
          distance := Real.sqrt (distanceSquaredToTile
            SceneMode.COLUMBUS_VIEW (fun _ => ⟨0, 0, 0⟩) ⟨1, 0, 0⟩
            ⟨0, 0, 0⟩ sampleTile) }) :=
  C4_screen_space_error_formula SceneMode.COLUMBUS_VIEW (fun _ => ⟨0, 0, 0⟩)
    (fun _ => 2) ⟨1, 0, 0⟩ ⟨0, 0, 0⟩ 1 1 (Real.pi / 2) 0 0 0 0 sampleTile
    (by decide)

/-- Claim C4 counterexample: in Columbus View, at the sample tile (whose
latitude closest to the equator is pi/3), the screen-space error computed
by the code is 1, not the claimed
cos(latitudeClosestToEquator) * maxError * height /
(2 * distance * tan(fovy / 2)) = 1/2: the latitude cosine is not applied
outside SCENE3D. -/
theorem C4_columbus_latitude_factor_counterexample :
    (screenSpaceError SceneMode.COLUMBUS_VIEW (fun _ => ⟨0, 0, 0⟩)
        (fun _ => 2) ⟨1, 0, 0⟩ ⟨0, 0, 0⟩ 1 1 (Real.pi / 2) 0 0 0 0
        sampleTile).1 ≠
      (Real.cos (if sampleTile.extent.south > 0 then sampleTile.extent.south
          else if sampleTile.extent.north < 0 then sampleTile.extent.north
          else 0) * 2 * 1) /
        (2 * Real.sqrt (distanceSquaredToTile SceneMode.COLUMBUS_VIEW
            (fun _ => ⟨0, 0, 0⟩) ⟨1, 0, 0⟩ ⟨0, 0, 0⟩ sampleTile) *
          Real.tan (Real.pi / 2 / 2)) := by
  have hd := distanceSquared_sample
  have hm1 : SceneMode.COLUMBUS_VIEW ≠ SceneMode.SCENE2D := by decide
  have hm2 : SceneMode.COLUMBUS_VIEW ≠ SceneMode.SCENE3D := by decide
  have hpi3 : (0 : ℝ) < Real.pi / 3 := by positivity
  have hsouth : sampleTile.extent.south = Real.pi / 3 := rfl
  have hif : (if sampleTile.extent.south > 0 then sampleTile.extent.south
      else if sampleTile.extent.north < 0 then sampleTile.extent.north
      else 0) = Real.pi / 3 := by
    rw [hsouth]
    exact if_pos hpi3
  have htanA : Real.tan ((0.5 : ℝ) * (Real.pi / 2)) = 1 := by
    rw [show (0.5 : ℝ) * (Real.pi / 2) = Real.pi / 4 by ring]
    exact Real.tan_pi_div_four
  have htanB : Real.tan (Real.pi / 2 / 2) = 1 := by
    rw [show (Real.pi / 2 / 2 : ℝ) = Real.pi / 4 by ring]
    exact Real.tan_pi_div_four
  simp [screenSpaceError, hm1, hm2, hd, hif, htanA, htanB,
    Real.cos_pi_div_three, Real.sqrt_one]

/-! ### C5 and C10: the command batch loop of
createRenderCommandsForSelectedTiles -/

/-- The fields of a TileImagery read by the command batch loop: the state
of its imagery and its texture (textures identified by a number). -/
structure ImageryRef where
  state : ImageryState
  texture : Nat
deriving DecidableEq, Repr

/-- A JS array element write `a[i] = v`: in-bounds writes set the slot,
out-of-bounds writes extend the array (the loop only ever writes at index =
current length or below, so no holes arise; padding is 0). -/
def setIdx (l : List Nat) (i : Nat) (v : Nat) : List Nat :=
  if i < l.length then l.set i v
  else l ++ List.replicate (i - l.length) 0 ++ [v]

/-- The inner packing loop of createRenderCommandsForSelectedTiles
(CentralBodySurface.js lines 981-997): `while (numberOfDayTextures <
maxTextures && imageryIndex < imageryLen)` — consume the next TileImagery,
skip it unless its imagery state is READY, otherwise write its texture at
`dayTextures[numberOfDayTextures]` and increment the count.  Arguments and
results: (remaining entries, numberOfDayTextures, dayTextures array). -/
def packLoop (maxTextures : Nat) :
    List ImageryRef → Nat → List Nat → List ImageryRef × Nat × List Nat
  | [], n, dayTextures => ([], n, dayTextures)
  | e :: rest, n, dayTextures =>
      if n < maxTextures then
        if e.state = ImageryState.READY then
          packLoop maxTextures rest (n + 1) (setIdx dayTextures n e.texture)
        else
          packLoop maxTextures rest n dayTextures
      else (e :: rest, n, dayTextures)

/-- The do-while of the batch loop (lines 944-1026): emit one command per
iteration, repeating `while (imageryIndex < imageryLen)`.  Counts the
commands emitted for one tile.  The fuel bounds the number of batches; with
maxTextures ≥ 1 each batch with entries left consumes at least one entry,
so `length + 1` fuel is never exhausted (with maxTextures = 0 the JS loop
would not terminate). -/
def runBatches (maxTextures : Nat) : Nat → List ImageryRef → Nat
  | 0, _ => 0
  | fuel + 1, stack =>
      let rest := (packLoop maxTextures stack 0 []).1
      1 + (if rest.isEmpty then 0 else runBatches maxTextures fuel rest)

/-- Number of draw commands emitted for one selected tile. -/
def commandsPerTile (maxTextures : Nat) (stack : List ImageryRef) : Nat :=
  runBatches maxTextures (stack.length + 1) stack

/-- Number of READY entries in an imagery stack. -/
def readyCount (stack : List ImageryRef) : Nat :=
  stack.countP fun e => decide (e.state = ImageryState.READY)

/-- Whether the final entry of the stack is READY. -/
def lastImageryReady (stack : List ImageryRef) : Bool :=
  match stack.getLast? with
  | some e => decide (e.state = ImageryState.READY)
  | none => false

/-- The truncation `uniformMap.dayTextures.length = numberOfDayTextures`
(line 1001) applied to the array produced by one batch starting from a
reused uniform map whose dayTextures array is `d`. -/
def trimmedDayTextures (maxTextures : Nat) (stack : List ImageryRef)
    (d : List Nat) : List Nat :=
  (packLoop maxTextures stack 0 d).2.2.take (packLoop maxTextures stack 0 d).2.1

lemma readyCount_nil : readyCount [] = 0 := rfl

lemma readyCount_cons (e : ImageryRef) (l : List ImageryRef) :
    readyCount (e :: l) =
      (if e.state = ImageryState.READY then 1 else 0) + readyCount l := by
  by_cases h : e.state = ImageryState.READY <;>
    simp [readyCount, List.countP_cons, h, Nat.add_comm]

lemma readyCount_append (l₁ l₂ : List ImageryRef) :
    readyCount (l₁ ++ l₂) = readyCount l₁ + readyCount l₂ := by
  simp [readyCount, List.countP_append]

lemma dropLast_append_ne {α : Type} (l₁ l₂ : List α) (h : l₂ ≠ []) :
    (l₁ ++ l₂).dropLast = l₁ ++ l₂.dropLast := by
  induction l₁ with
  | nil => simp
  | cons a t ih =>
      have hne : t ++ l₂ ≠ [] := by
        intro hc
        exact h (List.append_eq_nil.mp hc).2
      cases hl : t ++ l₂ with
      | nil => exact absurd hl hne
      | cons b t2 =>
          rw [List.cons_append, hl, List.dropLast_cons₂, ← hl, ih,
            List.cons_append]

lemma packLoop_rest_nil (maxTextures : Nat) :
    ∀ (stack : List ImageryRef) (n : Nat) (d : List Nat),
      (packLoop maxTextures stack n d).1 = [] →
      (packLoop maxTextures stack n d).2.1 = n + readyCount stack ∧
      (stack = [] ∨ n + readyCount stack.dropLast < maxTextures) := by
  intro stack
  induction stack with
  | nil => intro n d _; simp [packLoop, readyCount_nil]
  | cons e rest ih =>
      intro n d hrest
      by_cases hn : n < maxTextures
      · by_cases he : e.state = ImageryState.READY
        · rw [packLoop, if_pos hn, if_pos he] at hrest ⊢
          obtain ⟨h1, h2⟩ := ih (n + 1) (setIdx d n e.texture) hrest
          refine ⟨by rw [h1, readyCount_cons, if_pos he]; omega, Or.inr ?_⟩
          cases rest with
          | nil => simpa [readyCount_nil] using hn
          | cons r2 t2 =>
              rcases h2 with h2 | h2
              · exact absurd h2 (by simp)
              · rw [List.dropLast_cons₂, readyCount_cons, if_pos he]
                omega
        · rw [packLoop, if_pos hn, if_neg he] at hrest ⊢
          obtain ⟨h1, h2⟩ := ih n d hrest
          refine ⟨by rw [h1, readyCount_cons, if_neg he]; omega, Or.inr ?_⟩
          cases rest with
          | nil => simpa [readyCount_nil] using hn
          | cons r2 t2 =>
              rcases h2 with h2 | h2
              · exact absurd h2 (by simp)
              · rw [List.dropLast_cons₂, readyCount_cons, if_neg he]
                omega
      · rw [packLoop, if_neg hn] at hrest
        exact absurd hrest (by simp)

lemma packLoop_rest_cons (maxTextures : Nat) :
    ∀ (stack : List ImageryRef) (n : Nat) (d : List Nat),
      n ≤ maxTextures →
      (packLoop maxTextures stack n d).1 ≠ [] →
      (packLoop maxTextures stack n d).2.1 = maxTextures ∧
      ∃ consumed, stack = consumed ++ (packLoop maxTextures stack n d).1 ∧
        n + readyCount consumed = maxTextures ∧
        (n < maxTextures → consumed ≠ []) := by
  intro stack
  induction stack with
  | nil => intro n d _ hne; simp [packLoop] at hne
  | cons e rest ih =>
      intro n d hle hne
      by_cases hn : n < maxTextures
      · by_cases he : e.state = ImageryState.READY
        · rw [packLoop, if_pos hn, if_pos he] at hne ⊢
          obtain ⟨h1, consumed, hsplit, hcount, _⟩ :=
            ih (n + 1) (setIdx d n e.texture) hn hne
          refine ⟨h1, e :: consumed, by rw [List.cons_append, ← hsplit], ?_,
            fun _ => by simp⟩
          rw [readyCount_cons, if_pos he]
          omega
        · rw [packLoop, if_pos hn, if_neg he] at hne ⊢
          obtain ⟨h1, consumed, hsplit, hcount, hne2⟩ := ih n d hle hne
          refine ⟨h1, e :: consumed, by rw [List.cons_append, ← hsplit], ?_,
            fun _ => by simp⟩
          rw [readyCount_cons, if_neg he]
          omega
      · rw [packLoop, if_neg hn] at hne ⊢
        have hmax : n = maxTextures := by omega
        exact ⟨hmax.symm ▸ rfl, [], by simp, by simp [readyCount_nil, hmax],
          fun hlt => absurd hlt hn⟩

lemma runBatches_eq (maxTextures : Nat) (hm : 1 ≤ maxTextures) :
    ∀ (fuel : Nat) (stack : List ImageryRef), stack.length < fuel →
      runBatches maxTextures fuel stack =
        1 + readyCount stack.dropLast / maxTextures := by
  intro fuel
  induction fuel with
  | zero => intro stack h; omega
  | succ f ih =>
      intro stack hlen
      rw [runBatches]
      by_cases hrest : (packLoop maxTextures stack 0 []).1 = []
      · obtain ⟨_, h2⟩ := packLoop_rest_nil maxTextures stack 0 [] hrest
        have hz : readyCount stack.dropLast / maxTextures = 0 := by
          rcases h2 with h2 | h2
          · subst h2; simp [readyCount_nil]
          · exact Nat.div_eq_of_lt (by omega)
        simp [hrest, hz]
      · obtain ⟨-, consumed, hsplit, hcount, hne⟩ :=
          packLoop_rest_cons maxTextures stack 0 [] (by omega) hrest
        have hconsumed : consumed ≠ [] := hne hm
        revert hsplit hrest
        generalize (packLoop maxTextures stack 0 []).1 = r
        intro hrest hsplit
        have hlenr : r.length < stack.length := by
          rw [hsplit, List.length_append]
          have : 0 < consumed.length := List.length_pos.mpr hconsumed
          omega
        have hdrop : readyCount stack.dropLast =
            maxTextures + readyCount r.dropLast := by
          rw [hsplit, dropLast_append_ne _ _ hrest, readyCount_append]
          omega
        have hrw := ih r (by omega)
        have hempty : r.isEmpty = false := by
          cases r
          · exact absurd rfl hrest
          · rfl
        rw [hempty]
        simp only [Bool.false_eq_true, if_false, hrw, hdrop]
        rw [Nat.add_comm maxTextures, Nat.add_div_right _ (by omega)]
        omega

/-- Claim C5 (amended): with maxTextureUnits ≥ 1, the batch loop packs up
to maxTextureUnits READY entries per command, skipping non-READY entries,
and the number of commands emitted for a tile is
ceil(readyCount / maxTextureUnits) (at least 1 even when readyCount = 0) —
except that one extra untextured command is emitted when readyCount is a
positive multiple of maxTextureUnits and the final stack entry is not READY
(the do-while re-enters on the leftover non-READY tail). -/
theorem C5_commands_per_tile (maxTextures : Nat) (stack : List ImageryRef)
    (hm : 1 ≤ maxTextures) :
    commandsPerTile maxTextures stack =
      if readyCount stack = 0 then 1
      else (readyCount stack + maxTextures - 1) / maxTextures +
        (if maxTextures ∣ readyCount stack ∧ lastImageryReady stack = false
          then 1 else 0) := by
  have hbase := runBatches_eq maxTextures hm (stack.length + 1) stack
    (Nat.lt_succ_self _)
  rw [commandsPerTile, hbase]
  rcases hlast : stack.getLast? with _ | e
  · have hnil : stack = [] := List.getLast?_eq_none_iff.mp hlast
    subst hnil
    simp [readyCount_nil, lastImageryReady]
  · have hsplit := List.dropLast_append_getLast? e hlast
    have hr : readyCount stack =
        readyCount stack.dropLast +
          (if e.state = ImageryState.READY then 1 else 0) := by
      conv_lhs => rw [← hsplit]
      rw [readyCount_append, readyCount_cons, readyCount_nil, Nat.add_zero]
    rw [lastImageryReady, hlast]
    by_cases he : e.state = ImageryState.READY
    · rw [if_pos he] at hr
      have hpos : 1 ≤ readyCount stack := by omega
      have hd : readyCount stack.dropLast = readyCount stack - 1 := by omega
      rw [hd, if_neg (by omega)]
      have hif : (if maxTextures ∣ readyCount stack ∧
          (decide (e.state = ImageryState.READY)) = false then 1 else 0) =
          0 := by
        rw [if_neg]
        rintro ⟨_, hfalse⟩
        rw [decide_eq_true he] at hfalse
        exact absurd hfalse (by simp)
      rw [hif, Nat.add_zero,
        show readyCount stack + maxTextures - 1 =
          (readyCount stack - 1) + maxTextures by omega,
        Nat.add_div_right _ (by omega)]
      omega
    · rw [if_neg he] at hr
      have hd : readyCount stack.dropLast = readyCount stack := by omega
      rw [hd]
      by_cases hz : readyCount stack = 0
      · rw [if_pos hz, hz]
        simp
      · rw [if_neg hz]
        have hsucc : readyCount stack / maxTextures =
            (readyCount stack - 1) / maxTextures +
              if maxTextures ∣ readyCount stack then 1 else 0 := by
          have := Nat.succ_div (readyCount stack - 1) maxTextures
          rw [show readyCount stack - 1 + 1 = readyCount stack by omega]
            at this
          exact this
        have hceil : (readyCount stack + maxTextures - 1) / maxTextures =
            (readyCount stack - 1) / maxTextures + 1 := by
          rw [show readyCount stack + maxTextures - 1 =
            (readyCount stack - 1) + maxTextures by omega,
            Nat.add_div_right _ (by omega)]
        rw [hceil, hsucc]
        have hif2 : (if maxTextures ∣ readyCount stack ∧
            (decide (e.state = ImageryState.READY)) = false then 1 else 0) =
            if maxTextures ∣ readyCount stack then 1 else 0 := by
          by_cases hdvd : maxTextures ∣ readyCount stack
          · rw [if_pos hdvd, if_pos ⟨hdvd, by simp [he]⟩]
          · rw [if_neg hdvd, if_neg (fun hc => hdvd hc.1)]
        rw [hif2]
        omega

/-- Claim C5 witness: maxTextures 2, one READY entry: a single command. -/
theorem C5_commands_per_tile_witness :
    commandsPerTile 2 [⟨ImageryState.READY, 7⟩] =
      if readyCount [⟨ImageryState.READY, 7⟩] = 0 then 1
      else (readyCount [⟨ImageryState.READY, 7⟩] + 2 - 1) / 2 +
        (if 2 ∣ readyCount [⟨ImageryState.READY, 7⟩] ∧
            lastImageryReady [⟨ImageryState.READY, 7⟩] = false
          then 1 else 0) :=
  C5_commands_per_tile 2 [⟨ImageryState.READY, 7⟩] (by decide)

/-- Claim C5 counterexample: with maxTextureUnits = 1 and the stack
[READY, FAILED], the loop emits 2 commands (the do-while re-enters on the
trailing non-READY entry and emits an empty batch), but
ceil(readyCount / maxTextureUnits) = ceil(1/1) = 1. -/
theorem C5_ceil_counterexample :
    commandsPerTile 1 [⟨ImageryState.READY, 7⟩, ⟨ImageryState.FAILED, 3⟩] =
        2 ∧
    (readyCount [⟨ImageryState.READY, 7⟩, ⟨ImageryState.FAILED, 3⟩] +
        1 - 1) / 1 = 1 ∧
    ¬commandsPerTile 1
        [⟨ImageryState.READY, 7⟩, ⟨ImageryState.FAILED, 3⟩] =
      (readyCount [⟨ImageryState.READY, 7⟩, ⟨ImageryState.FAILED, 3⟩] +
        1 - 1) / 1 := by
  decide

/-- The textures a batch packs: the first maxTextures READY entries of the
stack, in order (reference list for the batch loop; `remaining` counts the
texture slots still free). -/
def packedTextures : Nat → List ImageryRef → List Nat
  | _, [] => []
  | remaining, e :: rest =>
      if remaining = 0 then []
      else if e.state = ImageryState.READY then
        e.texture :: packedTextures (remaining - 1) rest
      else packedTextures remaining rest

lemma setIdx_length (l : List Nat) (i v : Nat) :
    (setIdx l i v).length = max l.length (i + 1) := by
  rw [setIdx]
  by_cases h : i < l.length
  · rw [if_pos h, List.length_set]
    omega
  · rw [if_neg h]
    simp only [List.length_append, List.length_replicate, List.length_cons,
      List.length_nil]
    omega

lemma take_setIdx (l : List Nat) (i v : Nat) (h : i ≤ l.length) :
    (setIdx l i v).take (i + 1) = l.take i ++ [v] := by
  induction l generalizing i with
  | nil =>
      have hi : i = 0 := by simpa using h
      subst hi
      simp [setIdx]
  | cons a t ih =>
      cases i with
      | zero => simp [setIdx]
      | succ j =>
          have hj : j ≤ t.length := by simpa using h
          by_cases hlt : j < t.length
          · rw [setIdx, if_pos (by simpa using Nat.succ_lt_succ hlt)]
            rw [List.set_cons_succ, List.take_succ_cons]
            have hs : t.set j v = setIdx t j v := by
              rw [setIdx, if_pos hlt]
            rw [hs, ih j hj, List.take_succ_cons, List.cons_append]
          · have hj2 : j = t.length := by omega
            subst hj2
            rw [setIdx, if_neg (by simp)]
            rw [show t.length + 1 - (a :: t).length = 0 by simp]
            simp only [List.replicate_zero, List.nil_append]
            rw [List.take_of_length_le (by simp), List.take_of_length_le (by simp)]
            simp

lemma packLoop_dayTextures (maxTextures : Nat) :
    ∀ (stack : List ImageryRef) (n : Nat) (d : List Nat), n ≤ d.length →
      (packLoop maxTextures stack n d).2.2.take
          (packLoop maxTextures stack n d).2.1 =
        d.take n ++ packedTextures (maxTextures - n) stack ∧
      n ≤ (packLoop maxTextures stack n d).2.1 ∧
      (packLoop maxTextures stack n d).2.1 ≤
        (packLoop maxTextures stack n d).2.2.length := by
  intro stack
  induction stack with
  | nil =>
      intro n d h
      refine ⟨by simp [packLoop, packedTextures], Nat.le_refl n, ?_⟩
      simpa [packLoop] using h
  | cons e rest ih =>
      intro n d h
      by_cases hn : n < maxTextures
      · have hrem : maxTextures - n ≠ 0 := by omega
        by_cases he : e.state = ImageryState.READY
        · rw [packLoop, if_pos hn, if_pos he,
            packedTextures, if_neg hrem, if_pos he]
          have hlen : n + 1 ≤ (setIdx d n e.texture).length := by
            rw [setIdx_length]
            omega
          obtain ⟨h1, h2, h3⟩ := ih (n + 1) (setIdx d n e.texture) hlen
          refine ⟨?_, by omega, h3⟩
          rw [h1, take_setIdx d n e.texture h,
            show maxTextures - (n + 1) = maxTextures - n - 1 by omega,
            List.append_assoc, List.singleton_append]
        · rw [packLoop, if_pos hn, if_neg he,
            packedTextures, if_neg hrem, if_neg he]
          exact ih n d h
      · have hrem : maxTextures - n = 0 := by omega
        rw [packLoop, if_neg hn, hrem, packedTextures, if_pos rfl]
        exact ⟨by simp, Nat.le_refl n, h⟩

/-- Claim C10: for every command, after the batch write loop the truncation
`uniformMap.dayTextures.length = numberOfDayTextures` leaves the pooled
uniform map's dayTextures equal to exactly the textures of the READY
entries packed into that command — its length is exactly
numberOfDayTextures and its content is independent of whatever the reused
array `d` held from an earlier frame or batch, so no stale texture
reference survives. -/
theorem C10_day_textures_exact (maxTextures : Nat) (stack : List ImageryRef)
    (d : List Nat) :
    trimmedDayTextures maxTextures stack d = packedTextures maxTextures stack ∧
    (trimmedDayTextures maxTextures stack d).length =
      (packLoop maxTextures stack 0 d).2.1 := by
  obtain ⟨h1, _, h3⟩ :=
    packLoop_dayTextures maxTextures stack 0 d (Nat.zero_le _)
  constructor
  · rw [trimmedDayTextures, h1]
    simp
  · rw [trimmedDayTextures, List.length_take]
    exact Nat.min_eq_left h3

/-! ### C6: the tileCommands pool truncation -/

/-- Total number of commands pushed onto colorCommandList by
createRenderCommandsForSelectedTiles for the given selected tiles (each
tile contributes its batch-loop commands; `tileCommandIndex` is
pre-incremented once per command, starting from -1). -/
def totalCommandsEmitted (maxTextures : Nat)
    (tiles : List (List ImageryRef)) : Nat :=
  (tiles.map (commandsPerTile maxTextures)).sum

/-- The pool truncation at the end of createRenderCommandsForSelectedTiles
(line 1031): `tileCommands.length = Math.max(0, tileCommandIndex)`.  After
emitting n commands, tileCommandIndex = n - 1 (it started at -1), so the
pool is truncated to max(0, n - 1). -/
def trimmedTileCommandsLength (numEmitted : Nat) : Int :=
  max 0 ((numEmitted : Int) - 1)

/-- Claim C6 (code bug): one selected tile with an empty imagery stack
emits exactly one command, yet the pool is truncated to length
max(0, tileCommandIndex) = 0, dropping the command that was just pushed —
the pool does not retain every command emitted this frame (the intended
length, per the adjacent comment "trim command list to the number actually
needed", is tileCommandIndex + 1). -/
theorem C6_pool_truncation_off_by_one :
    totalCommandsEmitted 1 [[]] = 1 ∧
    trimmedTileCommandsLength (totalCommandsEmitted 1 [[]]) = 0 ∧
    trimmedTileCommandsLength (totalCommandsEmitted 1 [[]]) ≠
      (totalCommandsEmitted 1 [[]] : Int) := by
  decide

/-! ### C7: the load-queue / doneLoading invariant -/

/-- Modelled from the spec: TileLoadQueue (spec section 4.1) — its
implementation file is not under src/, only its call sites in
CentralBodySurface.js are.  An intrusive list of tile handles with an
insertion boundary: `markInsertionPoint` records the current head;
`insertBeforeInsertionPoint` moves-or-inserts a tile immediately before
that boundary (at the tail when the boundary is absent); `remove` unlinks a
tile.  A tile is linked at most once (intrusive links), so the queue list
is duplicate-free. -/
structure TileLoadQueue where
  queue : List Nat
  insertionPoint : Option Nat

/-- Insert `t` immediately before the first occurrence of `m` (at the tail
when `m` does not occur). -/
def insertBefore : List Nat → Nat → Nat → List Nat
  | [], _, t => [t]
  | x :: rest, m, t =>
      if x = m then t :: x :: rest else x :: insertBefore rest m t

def TileLoadQueue.markInsertionPoint (q : TileLoadQueue) : TileLoadQueue :=
  { q with insertionPoint := q.queue.head? }

def TileLoadQueue.remove (q : TileLoadQueue) (t : Nat) : TileLoadQueue :=
  { q with queue := q.queue.erase t }

def TileLoadQueue.insertBeforeInsertionPoint (q : TileLoadQueue) (t : Nat) :
    TileLoadQueue :=
  let without := q.queue.erase t
  match q.insertionPoint with
  | none => { q with queue := without ++ [t] }
  | some m => { q with queue := insertBefore without m t }

/-- The load-related state of the surface: the load queue and each tile's
doneLoading flag. -/
structure LoadState where
  loadQueue : TileLoadQueue
  doneLoading : Nat → Bool

/-- The operations CentralBodySurface.js performs on the load queue and the
doneLoading flags across a frame:
* `markInsertion` — selectTilesForRendering line 278;
* `touchTile` — queueTileLoad (line 556) as called from lines 294-296 and
  544-545, always guarded by `if (!tile.doneLoading)`;
* `completeTile` — the pump's completion step (lines 667-671):
  doneLoading := true and removal from the queue in the same step;
* `layerAddedInvalidate` — _onLayerAdded line 135: doneLoading := false;
* `evictTile` — replacement-queue eviction unlinks the tile from both
  queues (spec section 4.2). -/
inductive SurfaceOp where
  | markInsertion
  | touchTile (t : Nat)
  | completeTile (t : Nat)
  | layerAddedInvalidate (t : Nat)
  | evictTile (t : Nat)

def applyOp (s : LoadState) : SurfaceOp → LoadState
  | .markInsertion => { s with loadQueue := s.loadQueue.markInsertionPoint }
  | .touchTile t =>
      if s.doneLoading t then s
      else { s with loadQueue := s.loadQueue.insertBeforeInsertionPoint t }
  | .completeTile t =>
      { loadQueue := s.loadQueue.remove t,
        doneLoading := fun x => if x = t then true else s.doneLoading x }
  | .layerAddedInvalidate t =>
      { s with
          doneLoading := fun x => if x = t then false else s.doneLoading x }
  | .evictTile t => { s with loadQueue := s.loadQueue.remove t }

def applyOps (s : LoadState) (ops : List SurfaceOp) : LoadState :=
  ops.foldl applyOp s

/-- The invariant: the queue holds no duplicates (intrusive links) and
every queued tile has doneLoading = false. -/
def LoadQueueWF (s : LoadState) : Prop :=
  s.loadQueue.queue.Nodup ∧
  ∀ t ∈ s.loadQueue.queue, s.doneLoading t = false

lemma mem_insertBefore (l : List Nat) (m t x : Nat) :
    x ∈ insertBefore l m t ↔ x ∈ l ∨ x = t := by
  induction l with
  | nil => simp [insertBefore]
  | cons a rest ih =>
      by_cases ha : a = m
      · simp [insertBefore, ha]
        tauto
      · simp [insertBefore, ha, ih]
        tauto

lemma nodup_insertBefore (l : List Nat) (m t : Nat) (h : l.Nodup)
    (ht : t ∉ l) : (insertBefore l m t).Nodup := by
  induction l with
  | nil => simp [insertBefore]
  | cons a rest ih =>
      have hnr := (List.nodup_cons.mp h).2
      have har := (List.nodup_cons.mp h).1
      have htr : t ∉ rest := fun hc => ht (List.mem_cons_of_mem a hc)
      have hta : t ≠ a := fun hc => ht (hc ▸ List.mem_cons_self a rest)
      by_cases ha : a = m
      · rw [insertBefore, if_pos ha]
        exact List.nodup_cons.mpr ⟨by simp [hta, htr], h⟩
      · rw [insertBefore, if_neg ha]
        refine List.nodup_cons.mpr ⟨?_, ih hnr htr⟩
        rw [mem_insertBefore]
        rintro (hc | hc)
        · exact har hc
        · exact hta hc.symm

lemma applyOp_preserves_wf (s : LoadState) (op : SurfaceOp)
    (h : LoadQueueWF s) : LoadQueueWF (applyOp s op) := by
  obtain ⟨hnd, hinv⟩ := h
  cases op with
  | markInsertion =>
      exact ⟨hnd, hinv⟩
  | touchTile t =>
      rw [applyOp]
      by_cases hdone : s.doneLoading t
      · rw [if_pos hdone]
        exact ⟨hnd, hinv⟩
      · rw [if_neg hdone]
        have hnde : (s.loadQueue.queue.erase t).Nodup := hnd.erase t
        have hte : t ∉ s.loadQueue.queue.erase t := hnd.not_mem_erase
        have hmem : ∀ x, x ∈ (s.loadQueue.insertBeforeInsertionPoint t).queue →
            x ∈ s.loadQueue.queue ∨ x = t := by
          intro x hx
          rw [TileLoadQueue.insertBeforeInsertionPoint] at hx
          cases hip : s.loadQueue.insertionPoint with
          | none =>
              rw [hip] at hx
              simp only [List.mem_append, List.mem_singleton] at hx
              rcases hx with hx | hx
              · exact Or.inl (List.mem_of_mem_erase hx)
              · exact Or.inr hx
          | some m =>
              rw [hip] at hx
              rw [mem_insertBefore] at hx
              rcases hx with hx | hx
              · exact Or.inl (List.mem_of_mem_erase hx)
              · exact Or.inr hx
        constructor
        · rw [TileLoadQueue.insertBeforeInsertionPoint]
          cases hip : s.loadQueue.insertionPoint with
          | none =>
              simp only [List.nodup_append, List.nodup_cons, List.nodup_nil]
              exact ⟨hnde, by simp, by simpa using fun hc => hte hc⟩
          | some m => exact nodup_insertBefore _ m t hnde hte
        · intro x hx
          rcases hmem x hx with hx2 | hx2
          · exact hinv x hx2
          · subst hx2
            simpa using hdone
  | completeTile t =>
      refine ⟨hnd.erase t, ?_⟩
      intro x hx
      have hxq := List.mem_of_mem_erase hx
      have hxt : x ≠ t := by
        intro hc
        subst hc
        exact hnd.not_mem_erase hx
      simp only [applyOp, if_neg hxt]
      exact hinv x hxq
  | layerAddedInvalidate t =>
      refine ⟨hnd, ?_⟩
      intro x hx
      by_cases hxt : x = t
      · simp [applyOp, hxt]
      · simp only [applyOp, if_neg hxt]
        exact hinv x hx
  | evictTile t =>
      refine ⟨hnd.erase t, ?_⟩
      intro x hx
      exact hinv x (List.mem_of_mem_erase hx)

/-- Claim C7: from any state satisfying the load-queue invariant (as the
freshly constructed surface with an empty queue does), any sequence of the
frame operations preserves it: every tile in the load queue has
doneLoading = false — tiles are inserted only under the
`if (!tile.doneLoading)` guard, and the only operation setting doneLoading
to true removes the tile from the queue in the same step. -/
theorem C7_load_queue_tiles_not_done (ops : List SurfaceOp) (s : LoadState)
    (hwf : LoadQueueWF s) :
    ∀ t ∈ (applyOps s ops).loadQueue.queue,
      (applyOps s ops).doneLoading t = false := by
  suffices h : LoadQueueWF (applyOps s ops) from h.2
  induction ops generalizing s with
  | nil => exact hwf
  | cons op rest ih => exact ih (applyOp s op) (applyOp_preserves_wf s op hwf)

/-- Claim C7 witness: starting from the empty queue, after touching tiles 1
and 2 and completing tile 1, the queue is [2] and tile 2 is not done. -/
theorem C7_load_queue_tiles_not_done_witness :
    (applyOps
        { loadQueue := { queue := [], insertionPoint := none },
          doneLoading := fun _ => false }
        [SurfaceOp.markInsertion, SurfaceOp.touchTile 1,
          SurfaceOp.touchTile 2, SurfaceOp.completeTile 1]).doneLoading 2 =
      false :=
  C7_load_queue_tiles_not_done
    [SurfaceOp.markInsertion, SurfaceOp.touchTile 1, SurfaceOp.touchTile 2,
      SurfaceOp.completeTile 1]
    { loadQueue := { queue := [], insertionPoint := none },
      doneLoading := fun _ => false }
    ⟨List.nodup_nil, by simp⟩ 2
    (by show 2 ∈ [2]; exact List.mem_singleton.mpr rfl)

/-! ### C8: _onLayerMoved and moveTileImageryObjects -/

/-- A TileImagery as seen by the layer-move scan: only the identity of
`tileImagery.imagery.imageryLayer` matters (layers identified by number). -/
structure LayerTileImagery where
  imageryLayer : Nat
deriving DecidableEq, Repr

/-- The scan loop of moveTileImageryObjects (CentralBodySurface.js lines
751-769): find the first index of the new next layer, the first index and
the count of the moved layer's TileImagerys, breaking early once both are
known.  Arguments: remaining entries, current index i, and the accumulators
(oldTileImageryIndex, newTileImageryIndex, numTileImagery), with -1 encoded
as none. -/
def scanMove (layer : Nat) (newNextLayer : Option Nat) :
    List LayerTileImagery → Nat → Option Nat → Option Nat → Nat →
    Option Nat × Option Nat × Nat
  | [], _, oldIdx, newIdx, num => (oldIdx, newIdx, num)
  | ti :: rest, i, oldIdx, newIdx, num =>
      if newIdx = none ∧ some ti.imageryLayer = newNextLayer then
        scanMove layer newNextLayer rest (i + 1) oldIdx (some i) num
      else if ti.imageryLayer = layer then
        scanMove layer newNextLayer rest (i + 1)
          (if oldIdx = none then some i else oldIdx) newIdx (num + 1)
      else if newIdx ≠ none ∧ oldIdx ≠ none then
        (oldIdx, newIdx, num)
      else
        scanMove layer newNextLayer rest (i + 1) oldIdx newIdx num

/-- moveTileImageryObjects (CentralBodySurface.js lines 750-780): scan,
splice the layer's block out at oldTileImageryIndex (JS splice with start
-1 clamps to length - 1 and, with numTileImagery then 0, removes nothing),
then splice it back in at newTileImageryIndex — computed before the
removal and not adjusted for it — or at the end when the new next layer
was not found (JS splice clamps an insertion index beyond the end to the
length). -/
def moveTileImageryObjects (tileImageryCollection : List LayerTileImagery)
    (layer : Nat) (newNextLayer : Option Nat) : List LayerTileImagery :=
  let scan := scanMove layer newNextLayer tileImageryCollection 0 none none 0
  let oldIdx := scan.1
  let newIdx := scan.2.1
  let num := scan.2.2
  let start := match oldIdx with
    | none => tileImageryCollection.length - 1
    | some o => o
  let tileImageryObjects := (tileImageryCollection.drop start).take num
  let kept := tileImageryCollection.take start ++
    tileImageryCollection.drop (start + num)
  let target := match newIdx with
    | none => kept.length
    | some k => k
  let t := min target kept.length
  kept.take t ++ tileImageryObjects ++ kept.drop t

/-- CentralBodySurface.prototype._onLayerMoved (lines 182-193), for a
surface whose level-zero tiles exist: compute the layer after the moved
layer's new position and reorder every resident tile's imagery stack. -/
def onLayerMoved (layers : List Nat) (tiles : List (List LayerTileImagery))
    (layer : Nat) (newIndex : Nat) (_oldIndex : Nat) :
    List (List LayerTileImagery) :=
  let newNextLayer := layers.get? (newIndex + 1)
  tiles.map fun tileImagery =>
    moveTileImageryObjects tileImagery layer newNextLayer

/-- Claim C8 counterexample: collection [layer 1, layer 2], one resident
tile with stack [layer-1 entry, layer-2 entry]; moving layer 1 to the index
it already occupies (0 → 0) swaps the stack to [layer-2 entry, layer-1
entry]: the re-insertion index (the next layer's position, computed before
the removal) is not adjusted for the removed block, so the same-index move
is not a no-op. -/
theorem C8_same_index_move_counterexample :
    onLayerMoved [1, 2] [[⟨1⟩, ⟨2⟩]] 1 0 0 ≠ [[⟨1⟩, ⟨2⟩]] := by
  decide

lemma scanMove_all_layer (layer : Nat) (newNextLayer : Option Nat)
    (hne : newNextLayer ≠ some layer) :
    ∀ (B : List LayerTileImagery) (i num : Nat) (o : Nat),
      (∀ e ∈ B, e.imageryLayer = layer) →
      scanMove layer newNextLayer B i (some o) none num =
        (some o, none, num + B.length) := by
  intro B
  induction B with
  | nil => intro i num o _; simp [scanMove]
  | cons b rest ih =>
      intro i num o hB
      have hb : b.imageryLayer = layer := hB b (List.mem_cons_self b rest)
      rw [scanMove, if_neg (by
          rintro ⟨-, hc⟩
          exact hne (hb ▸ hc).symm),
        if_pos hb, if_neg (by simp)]
      rw [ih (i + 1) (num + 1) o fun e he => hB e (List.mem_cons_of_mem b he)]
      simp only [List.length_cons]
      rw [Nat.add_right_comm, Nat.add_assoc]

lemma scanMove_skip_head (layer : Nat) (newNextLayer : Option Nat) :
    ∀ (P B : List LayerTileImagery) (i : Nat),
      (∀ e ∈ P, e.imageryLayer ≠ layer ∧
        some e.imageryLayer ≠ newNextLayer) →
      scanMove layer newNextLayer (P ++ B) i none none 0 =
        scanMove layer newNextLayer B (i + P.length) none none 0 := by
  intro P
  induction P with
  | nil => intro B i _; simp
  | cons p rest ih =>
      intro B i hP
      have hp := hP p (List.mem_cons_self p rest)
      rw [List.cons_append, scanMove, if_neg (by
          rintro ⟨-, hc⟩
          exact hp.2 hc),
        if_neg hp.1, if_neg (by simp)]
      rw [ih B (i + 1) fun e he => hP e (List.mem_cons_of_mem p he)]
      simp only [List.length_cons]
      rw [Nat.add_right_comm, Nat.add_assoc]

/-- Claim C8 (amended): moving a layer to the index it already occupies is
a no-op on a tile's imagery stack only when nothing follows the moved
layer's block: for a stack P ++ B whose prefix P holds neither the moved
layer nor the new next layer and whose tail block B is the moved layer's,
the move leaves the stack unchanged.  (When entries of the next layer
follow the block, the block is re-inserted at the next layer's original
index without adjusting for the removal, displacing it toward the tail —
see the counterexample.) -/
theorem C8_same_index_move_noop (P B : List LayerTileImagery) (layer : Nat)
    (newNextLayer : Option Nat)
    (hP : ∀ e ∈ P, e.imageryLayer ≠ layer ∧
      some e.imageryLayer ≠ newNextLayer)
    (hB : ∀ e ∈ B, e.imageryLayer = layer)
    (hne : newNextLayer ≠ some layer) :
    moveTileImageryObjects (P ++ B) layer newNextLayer = P ++ B := by
  cases B with
  | nil =>
      have hscan : scanMove layer newNextLayer (P ++ []) 0 none none 0 =
          (none, none, 0) := by
        rw [scanMove_skip_head layer newNextLayer P [] 0 hP]
        simp [scanMove]
      rw [moveTileImageryObjects, hscan]
      simp [List.take_append_drop]
  | cons b rest =>
      have hb : b.imageryLayer = layer := hB b (List.mem_cons_self b rest)
      have hscan : scanMove layer newNextLayer (P ++ b :: rest) 0 none
          none 0 = (some P.length, none, (b :: rest).length) := by
        rw [scanMove_skip_head layer newNextLayer P (b :: rest) 0 hP]
        have hc1 : ¬((none : Option Nat) = none ∧
            some b.imageryLayer = newNextLayer) := by
          rintro ⟨-, hc⟩
          exact hne (hb ▸ hc).symm
        rw [scanMove, if_neg hc1, if_pos hb,
          if_pos (rfl : (none : Option Nat) = none)]
        rw [scanMove_all_layer layer newNextLayer hne rest
          (0 + P.length + 1) (0 + 1) (0 + P.length)
          fun e he => hB e (List.mem_cons_of_mem b he)]
        simp [Nat.add_comm]
      have h1 : (P ++ b :: rest).drop P.length = b :: rest :=
        List.drop_left P (b :: rest)
      have h2 : (P ++ b :: rest).take P.length = P :=
        List.take_left P (b :: rest)
      have h3 : (P ++ b :: rest).drop (P.length + (b :: rest).length) =
          [] := by
        rw [← List.length_append, List.drop_length]
      rw [moveTileImageryObjects, hscan]
      simp [h1, h2, h3]

/-- Claim C8 witness: stack [layer-0 entry, layer-1 entry], moving layer 1
(whose block is the tail) to its own index with next layer 2: unchanged. -/
theorem C8_same_index_move_noop_witness :
    moveTileImageryObjects [⟨0⟩, ⟨1⟩] 1 (some 2) = [⟨0⟩, ⟨1⟩] :=
  C8_same_index_move_noop [⟨0⟩] [⟨1⟩] 1 (some 2) (by decide) (by decide)
    (by decide)

/-! ### C9: destroy -/

/-- The fields of CentralBodySurface that the constructor and destroy
touch.  The constructor (line 76) assigns `this._levelZeroTiles`; nothing
ever assigns `this.levelZeroTiles` (no underscore), so that plain property
is undefined — modelled as an Option field the constructor leaves none.
The two destroyed-flags record the would-be effects on the collaborators
destroy does not own. -/
structure CentralBodySurface where
  underscoreLevelZeroTiles : List Nat
  levelZeroTiles : Option (List Nat)
  terrainProviderDestroyed : Bool
  imageryLayerCollectionDestroyed : Bool
deriving DecidableEq, Repr

/-- The CentralBodySurface constructor (lines 59-107), restricted to the
fields destroy reads: `this._levelZeroTiles =
terrainTilingScheme.createLevelZeroTiles()`; the plain `levelZeroTiles`
property is never assigned. -/
def createCentralBodySurface (tiles : List Nat) : CentralBodySurface :=
  { underscoreLevelZeroTiles := tiles,
    levelZeroTiles := none,
    terrainProviderDestroyed := false,
    imageryLayerCollectionDestroyed := false }

/-- CentralBodySurface.prototype.destroy (lines 227-244): reads
`this.levelZeroTiles` — not `this._levelZeroTiles` — and immediately
evaluates `levelZeroTiles.length`; on undefined this is a TypeError.  Were
the property defined, it would destroy each level-zero tile, then the
terrain provider and the imagery layer collection, and return undefined. -/
def CentralBodySurface.destroy (s : CentralBodySurface) :
    Except String CentralBodySurface :=
  match s.levelZeroTiles with
  | none =>
      Except.error "TypeError: cannot read property length of undefined"
  | some _ =>
      Except.ok { s with
        terrainProviderDestroyed := true,
        imageryLayerCollectionDestroyed := true }

/-- Claim C9 (code bug): destroy() on any constructed surface does not
destroy the tiles and collaborators and return undefined — it raises a
TypeError at `levelZeroTiles.length`, because the constructor stores the
roots in `this._levelZeroTiles` while destroy reads the never-assigned
`this.levelZeroTiles`. -/
theorem C9_destroy_reads_wrong_property (tiles : List Nat) :
    (createCentralBodySurface tiles).destroy =
      Except.error "TypeError: cannot read property length of undefined" :=
  rfl

end CentralBody
